import Mathlib

/-!
# Verification of the code-review agent (src/code_review_agent/code_review_agent.py)

Shallow embedding of the review orchestration engine: configuration
validation, cache keying, the retry/backoff loop of the completion client,
single-file review, batch review, diff changed-file extraction, line
classification, and the recursive file walk.  External collaborators (the
remote LLM service, the filesystem, git, the JSON parser of response
bodies) are modelled as explicit environments/oracles; everything else is
translated from the Python source.

Machine integers are modelled as `Nat`/`Int` with explicit `% 2 ^ w` where
overflow matters (the MD5 implementation).  Python exceptions are modelled
with `Except`; Python dictionaries holding review results are modelled as
association lists.
-/

/-! ## Python string semantics helpers

Models of the Python `str` operations used by the source: `strip`,
`lstrip(chars)`, `split(sep)`, `startswith`, the `in` substring test,
`split(sep, 1)[1]`, `os.path.splitext` and `os.path.join`.  `str.strip()`
is modelled over the ASCII whitespace characters, which covers every input
appearing in this development. -/

def isPySpace (c : Char) : Bool :=
  c = ' ' || c = '\t' || c = '\n' || c = '\x0b' || c = '\x0c' || c = '\r'

/-- Python `str.strip()` on a character list: drop whitespace at both ends. -/
def pyStripL (cs : List Char) : List Char :=
  ((cs.dropWhile isPySpace).reverse.dropWhile isPySpace).reverse

/-- Python `str.strip()`. -/
def pyStrip (s : String) : String :=
  String.mk (pyStripL s.toList)

/-- Python `str.lstrip(chars)` on a character list: drop leading characters
belonging to the set `strip` (note: a character set, not a prefix). -/
def pyLstripL (strip : List Char) : List Char → List Char
  | [] => []
  | c :: cs => if c ∈ strip then pyLstripL strip cs else c :: cs

/-- Python `str.lstrip(chars)`. -/
def pyLstrip (s : String) (strip : List Char) : String :=
  String.mk (pyLstripL strip s.toList)

/-- Python `str.split(sep)` with an explicit one-character separator:
empty fields are preserved and the empty string yields `[""]`. -/
def pySplitCharAux (sep : Char) : List Char → List Char → List (List Char)
  | [], acc => [acc.reverse]
  | c :: cs, acc =>
      if c = sep then acc.reverse :: pySplitCharAux sep cs []
      else pySplitCharAux sep cs (c :: acc)

/-- Python `str.split(sep)` for a one-character separator. -/
def pySplitChar (s : String) (sep : Char) : List String :=
  (pySplitCharAux sep s.toList []).map String.mk

/-- Is `needle` a prefix of `hay`? (Python `str.startswith`). -/
def isPrefixL : List Char → List Char → Bool
  | [], _ => true
  | _ :: _, [] => false
  | a :: as, b :: bs => a = b && isPrefixL as bs

/-- Python `needle in hay` substring test. -/
def containsL (needle : List Char) : List Char → Bool
  | [] => isPrefixL needle []
  | c :: cs => isPrefixL needle (c :: cs) || containsL needle cs

/-- Python `needle in hay` on strings. -/
def pyContains (hay needle : String) : Bool :=
  containsL needle.toList hay.toList

/-- The remainder of `hay` after the first occurrence of `needle`
(Python `hay.split(needle, 1)[1]`, defined when `needle` occurs). -/
def afterFirstL (needle : List Char) : List Char → List Char
  | [] => []
  | c :: cs =>
      if isPrefixL needle (c :: cs) then (c :: cs).drop needle.length
      else afterFirstL needle cs

/-- Python `hay.split(needle, 1)[1]` on strings (used under an occurrence check). -/
def pyAfterFirst (hay needle : String) : String :=
  String.mk (afterFirstL needle.toList hay.toList)

/-- Python `str.startswith`. -/
def pyStartsWith (s pre : String) : Bool :=
  isPrefixL pre.toList s.toList

/-- Basename characters of a path: everything after the last `/`. -/
def pyBasenameL (cs : List Char) : List Char :=
  (cs.reverse.takeWhile (fun c => c ≠ '/')).reverse

/-- Python `os.path.basename`. -/
def pyBasename (s : String) : String :=
  String.mk (pyBasenameL s.toList)

/-- Extension of a basename, `os.path.splitext` style: the suffix starting at
the last dot, unless every character before that dot is itself a dot
(so `.bashrc` has no extension).  Returns `[]` when there is no dot. -/
def pyExtOfBase (base : List Char) : List Char :=
  let rev := base.reverse
  let extRev := rev.takeWhile (fun c => c ≠ '.')
  if extRev.length = rev.length then []
  else
    let pre := base.take (base.length - extRev.length - 1)
    if pre.any (fun c => c ≠ '.') ∨ pre = [] then
      if pre.any (fun c => c ≠ '.') then '.' :: extRev.reverse else []
    else []

/-- Python `os.path.splitext(path)[1]`. -/
def pySplitext (path : String) : String :=
  String.mk (pyExtOfBase (pyBasenameL path.toList))

/-- Python `str.lower()` (ASCII, which covers every input used here). -/
def pyLower (s : String) : String :=
  String.mk (s.toList.map Char.toLower)

/-- Python `os.path.join` for the shapes occurring in this program
(second component never absolute). -/
def pyJoin (root name : String) : String :=
  if root = "" then name
  else if root.toList.getLast? = some '/' then root ++ name
  else root ++ "/" ++ name

/-! ## Configuration (`CodeReviewConfig`, source lines 27-53)

Pydantic model with three field validators.  The integral fields are
modelled as `Int` (Python `int`), the temperature as `ℚ` (the float
comparisons `0 <= v <= 2` carry over exactly for the values at stake).
Construction either returns the record with every value stored unchanged
or fails with the validator's error message — pydantic never clamps. -/

structure CodeReviewConfig where
  model : String
  temperature : ℚ
  max_tokens : Int
  api_base : Option String
  retry_count : Int
  retry_delay : Int
  concurrent_workers : Int
  cache_dir : String
  deriving Repr, DecidableEq

/-- Validator `validate_temperature` (lines 37-41): `if not (0 <= v <= 2): raise`. -/
def validate_temperature (v : ℚ) : Except String ℚ :=
  if 0 ≤ v ∧ v ≤ 2 then .ok v else .error "温度必须在0到2之间"

/-- Validator `validate_retry_count` (lines 43-47): `if v < 0: raise`. -/
def validate_retry_count (v : Int) : Except String Int :=
  if v < 0 then .error "重试次数不能为负数" else .ok v

/-- Validator `validate_concurrent_workers` (lines 49-53): `if v < 1: raise`. -/
def validate_concurrent_workers (v : Int) : Except String Int :=
  if v < 1 then .error "并发工作线程至少为1" else .ok v

/-- Construction of a `CodeReviewConfig`: run the field validators and build
the record with the validated (unchanged) values.  Pydantic aggregates all
field errors into one `ValidationError`; here the first failing validator's
message is reported — construction fails exactly when some validator fails. -/
def mkConfig (model : String) (temperature : ℚ) (max_tokens : Int)
    (api_base : Option String) (retry_count retry_delay concurrent_workers : Int)
    (cache_dir : String) : Except String CodeReviewConfig :=
  match validate_temperature temperature with
  | .error e => .error e
  | .ok t =>
    match validate_retry_count retry_count with
    | .error e => .error e
    | .ok rc =>
      match validate_concurrent_workers concurrent_workers with
      | .error e => .error e
      | .ok cw =>
        .ok { model := model, temperature := t, max_tokens := max_tokens,
              api_base := api_base, retry_count := rc, retry_delay := retry_delay,
              concurrent_workers := cw, cache_dir := cache_dir }

/-! ## MD5 (used by `_get_cache_key`, source lines 117-120)

`hashlib.md5(combined.encode()).hexdigest()`: UTF-8 encode the combined
string, hash with MD5, render the 16-byte digest as 32 lowercase hex
characters.  The algorithm is implemented below over `Nat` with explicit
reduction modulo `2 ^ 32`. -/

/-- UTF-8 encoding of one scalar value (Python `str.encode()` is UTF-8). -/
def utf8EncodeCharNat (n : Nat) : List Nat :=
  if n < 0x80 then [n]
  else if n < 0x800 then [0xC0 + n / 64, 0x80 + n % 64]
  else if n < 0x10000 then [0xE0 + n / 4096, 0x80 + n / 64 % 64, 0x80 + n % 64]
  else [0xF0 + n / 262144, 0x80 + n / 4096 % 64, 0x80 + n / 64 % 64, 0x80 + n % 64]

/-- UTF-8 byte sequence of a string (Python `combined.encode()`). -/
def utf8Bytes (s : String) : List Nat :=
  s.toList.flatMap (fun c => utf8EncodeCharNat c.toNat)

/-- Left-rotation of a 32-bit word. -/
def rotl32 (x s : Nat) : Nat :=
  ((x * 2 ^ s) % 2 ^ 32 + x / 2 ^ (32 - s)) % 2 ^ 32

/-- Bitwise complement of a 32-bit word. -/
def lnot32 (x : Nat) : Nat := 4294967295 ^^^ x

/-- The MD5 sine-derived constant table `K` (64 entries). -/
def md5K : List Nat :=
  [0xd76aa478, 0xe8c7b756, 0x242070db, 0xc1bdceee,
   0xf57c0faf, 0x4787c62a, 0xa8304613, 0xfd469501,
   0x698098d8, 0x8b44f7af, 0xffff5bb1, 0x895cd7be,
   0x6b901122, 0xfd987193, 0xa679438e, 0x49b40821,
   0xf61e2562, 0xc040b340, 0x265e5a51, 0xe9b6c7aa,
   0xd62f105d, 0x02441453, 0xd8a1e681, 0xe7d3fbc8,
   0x21e1cde6, 0xc33707d6, 0xf4d50d87, 0x455a14ed,
   0xa9e3e905, 0xfcefa3f8, 0x676f02d9, 0x8d2a4c8a,
   0xfffa3942, 0x8771f681, 0x6d9d6122, 0xfde5380c,
   0xa4beea44, 0x4bdecfa9, 0xf6bb4b60, 0xbebfbc70,
   0x289b7ec6, 0xeaa127fa, 0xd4ef3085, 0x04881d05,
   0xd9d4d039, 0xe6db99e5, 0x1fa27cf8, 0xc4ac5665,
   0xf4292244, 0x432aff97, 0xab9423a7, 0xfc93a039,
   0x655b59c3, 0x8f0ccc92, 0xffeff47d, 0x85845dd1,
   0x6fa87e4f, 0xfe2ce6e0, 0xa3014314, 0x4e0811a1,
   0xf7537e82, 0xbd3af235, 0x2ad7d2bb, 0xeb86d391]

/-- The MD5 per-round shift table `s` (64 entries). -/
def md5S : List Nat :=
  [7, 12, 17, 22, 7, 12, 17, 22, 7, 12, 17, 22, 7, 12, 17, 22,
   5, 9, 14, 20, 5, 9, 14, 20, 5, 9, 14, 20, 5, 9, 14, 20,
   4, 11, 16, 23, 4, 11, 16, 23, 4, 11, 16, 23, 4, 11, 16, 23,
   6, 10, 15, 21, 6, 10, 15, 21, 6, 10, 15, 21, 6, 10, 15, 21]

/-- The `count` little-endian bytes of `n`. -/
def bytesLE : Nat → Nat → List Nat
  | 0, _ => []
  | k + 1, n => n % 256 :: bytesLE k (n / 256)

/-- MD5 padding: append `0x80`, zeros to 56 mod 64, then the bit length
modulo `2 ^ 64` as 8 little-endian bytes. -/
def md5Pad (msg : List Nat) : List Nat :=
  msg ++ 0x80 :: List.replicate ((120 - (msg.length + 1) % 64) % 64) 0
      ++ bytesLE 8 ((msg.length * 8) % 2 ^ 64)

/-- Split a byte list into 64-byte blocks. -/
def chunks64 (l : List Nat) : List (List Nat) :=
  if h : l = [] then [] else l.take 64 :: chunks64 (l.drop 64)
termination_by l.length
decreasing_by
  simp only [List.length_drop]
  have h0 : l.length ≠ 0 := by
    intro hl
    exact h (List.length_eq_zero.mp hl)
  omega

/-- The sixteen 32-bit little-endian words of one 64-byte block. -/
def md5Words (block : List Nat) : List Nat :=
  (List.range 16).map fun i =>
    block.getD (4 * i) 0 + 256 * block.getD (4 * i + 1) 0 +
      65536 * block.getD (4 * i + 2) 0 + 16777216 * block.getD (4 * i + 3) 0

/-- One of the 64 MD5 operations, acting on the state `(a, b, c, d)`. -/
def md5Step (M : List Nat) (st : Nat × Nat × Nat × Nat) (i : Nat) :
    Nat × Nat × Nat × Nat :=
  let (a, b, c, d) := st
  let f :=
    if i < 16 then (b &&& c) ||| (lnot32 b &&& d)
    else if i < 32 then (d &&& b) ||| (lnot32 d &&& c)
    else if i < 48 then b ^^^ c ^^^ d
    else c ^^^ (b ||| lnot32 d)
  let g :=
    if i < 16 then i
    else if i < 32 then (5 * i + 1) % 16
    else if i < 48 then (3 * i + 5) % 16
    else (7 * i) % 16
  let tmp := (f + a + md5K.getD i 0 + M.getD g 0) % 2 ^ 32
  (d, (b + rotl32 tmp (md5S.getD i 0)) % 2 ^ 32, b, c)

/-- Process one 64-byte block: 64 operations, then add into the chaining state. -/
def md5Block (st : Nat × Nat × Nat × Nat) (block : List Nat) :
    Nat × Nat × Nat × Nat :=
  let M := md5Words block
  let r := (List.range 64).foldl (md5Step M) st
  ((st.1 + r.1) % 2 ^ 32, (st.2.1 + r.2.1) % 2 ^ 32,
   (st.2.2.1 + r.2.2.1) % 2 ^ 32, (st.2.2.2 + r.2.2.2) % 2 ^ 32)

/-- The 16-byte MD5 digest of a byte sequence. -/
def md5Digest (msg : List Nat) : List Nat :=
  let st := (chunks64 (md5Pad msg)).foldl md5Block
    (0x67452301, 0xefcdab89, 0x98badcfe, 0x10325476)
  bytesLE 4 st.1 ++ bytesLE 4 st.2.1 ++ bytesLE 4 st.2.2.1 ++ bytesLE 4 st.2.2.2

/-- Lowercase hex character of a value below 16. -/
def hexChar (n : Nat) : Char :=
  if n < 10 then Char.ofNat (48 + n) else Char.ofNat (87 + n)

/-- Lowercase hex rendering of a byte list, two characters per byte
(Python `hexdigest()`). -/
def hexOfBytes (bs : List Nat) : String :=
  String.mk (bs.foldr (fun b acc => hexChar (b / 16 % 16) :: hexChar (b % 16) :: acc) [])

/-- Python `hashlib.md5(s.encode()).hexdigest()`. -/
def md5HexOfString (s : String) : String :=
  hexOfBytes (md5Digest (utf8Bytes s))

/-- Source `CodeReviewer._get_cache_key` (lines 117-120):
`combined = f"{content}\n---\n{prompt}"; md5(combined.encode()).hexdigest()`. -/
def get_cache_key (content prompt : String) : String :=
  md5HexOfString (content ++ "\n---\n" ++ prompt)

/-! ## Review results, cache and language tables

A Python dict holding a review result is modelled as an association list;
`{"error": reason}` is the list `[("error", reason)]`.  The cache (one
JSON file per key) is an association list keyed by the cache key. -/

abbrev Message := String × String

abbrev ReviewResult := List (String × String)

/-- Python `"error" in result`. -/
def hasError (r : ReviewResult) : Bool :=
  r.any (fun kv => kv.1 = "error")

/-- Python truthiness of a dict: `if cached_result:` — `None` and the empty
dict are both falsy. -/
def pyTruthyDict (r : ReviewResult) : Bool :=
  !r.isEmpty

abbrev Cache := List (String × ReviewResult)

/-- Source `CodeReviewer._get_cached_result` (lines 122-131): the stored entry for
the key, if a readable one exists (`none` models both a missing cache file
and an unreadable one, which the source degrades to a miss). -/
def get_cached_result (cache : Cache) (key : String) : Option ReviewResult :=
  (cache.find? (fun e => e.1 = key)).map (·.2)

/-- Source `CodeReviewer._cache_result` (lines 133-140): persist the result under
the key, overwriting any previous entry. -/
def cache_result (cache : Cache) (key : String) (result : ReviewResult) : Cache :=
  (key, result) :: cache.filter (fun e => e.1 ≠ key)

/-- The `SUPPORTED_LANGUAGES` table (lines 56-77), in source order. -/
def SUPPORTED_LANGUAGES : List (String × List String) :=
  [("python", [".py"]),
   ("javascript", [".js", ".jsx"]),
   ("typescript", [".ts", ".tsx"]),
   ("java", [".java"]),
   ("csharp", [".cs"]),
   ("go", [".go"]),
   ("rust", [".rs"]),
   ("cpp", [".cpp", ".cc", ".cxx", ".c++", ".h", ".hpp"]),
   ("c", [".c", ".h"]),
   ("php", [".php"]),
   ("ruby", [".rb"]),
   ("swift", [".swift"]),
   ("kotlin", [".kt"]),
   ("html", [".html", ".htm"]),
   ("css", [".css"]),
   ("scss", [".scss"]),
   ("json", [".json"]),
   ("yaml", [".yaml", ".yml"]),
   ("markdown", [".md"]),
   ("sql", [".sql"])]

/-- The `LANGUAGE_SPECIFIC_PROMPTS` table (lines 80-87). -/
def LANGUAGE_SPECIFIC_PROMPTS : List (String × String) :=
  [("python", "特别注意PEP 8规范的遵守情况，包括缩进、命名约定、导入顺序等。检查是否有使用Python 3的新特性来简化代码。"),
   ("javascript", "特别注意ES6+特性的使用，检查是否有回调地狱问题，以及异步代码的处理方式。"),
   ("typescript", "特别注意类型定义的完整性和准确性，检查是否有未使用的变量或导入。"),
   ("java", "特别注意异常处理和资源管理，检查是否有内存泄漏风险。"),
   ("csharp", "特别注意空引用问题，检查是否有适当的null检查。"),
   ("go", "特别注意错误处理方式，检查是否有goroutine泄漏风险。")]

/-- Source `CodeReviewer._get_file_language` (lines 109-115): lowercase the
extension and return the first language of the table owning it. -/
def get_file_language (file_path : String) : Option String :=
  let ext := pyLower (pySplitext file_path)
  (SUPPORTED_LANGUAGES.find? (fun le => ext ∈ le.2)).map (·.1)

/-- Lookup `LANGUAGE_SPECIFIC_PROMPTS.get(language, "")` (line 180); `language`
may be `None`. -/
def langPrompt (language : Option String) : String :=
  match language with
  | none => ""
  | some l => ((LANGUAGE_SPECIFIC_PROMPTS.find? (fun p => p.1 = l)).map (·.2)).getD ""

/-! ## Completion client (`CodeReviewer._call_openai_api`, lines 142-172)

The remote service and the JSON parsing of its body are the environment: an
oracle gives, for a message list and an attempt index, the outcome of that
attempt.  `success parsed` is a response whose body `json.loads` either
parses (`some result`) or rejects (`none`, the `json.JSONDecodeError`
branch); `rateLimit` is `openai.RateLimitError`; `apiError` is
`openai.APIError`; `unexpected msg` is any other exception `e` with
`str(e) = msg`.  The function returns the result dict together with the
trace of sleep durations and the number of requests issued. -/

inductive AttemptOutcome where
  | success (parsed : Option ReviewResult)
  | rateLimit
  | apiError
  | unexpected (msg : String)

abbrev ServiceOracle := List Message → Nat → AttemptOutcome

/-- The malformed-body error message (line 159). -/
def invalidJsonMsg : String := "API返回的内容格式无效"

/-- The retry-exhaustion error message (line 172). -/
def retryExceededMsg (n : Int) : String := "达到最大重试次数 " ++ toString n

/-- The retry loop from attempt index `attempt` with `fuel` iterations left
(`for attempt in range(self.config.retry_count)`); sleeping
`retry_delay * 2 ** attempt` after a rate-limit or API error. -/
def callApiFrom (cfg : CodeReviewConfig) (oracle : ServiceOracle)
    (messages : List Message) : Nat → Nat → ReviewResult × List Int × Nat
  | _, 0 => ([("error", retryExceededMsg cfg.retry_count)], [], 0)
  | attempt, fuel + 1 =>
    match oracle messages attempt with
    | .success (some r) => (r, [], 1)
    | .success none => ([("error", invalidJsonMsg)], [], 1)
    | .rateLimit =>
        let rest := callApiFrom cfg oracle messages (attempt + 1) fuel
        (rest.1, cfg.retry_delay * 2 ^ attempt :: rest.2.1, rest.2.2 + 1)
    | .apiError =>
        let rest := callApiFrom cfg oracle messages (attempt + 1) fuel
        (rest.1, cfg.retry_delay * 2 ^ attempt :: rest.2.1, rest.2.2 + 1)
    | .unexpected msg => ([("error", msg)], [], 1)

/-- Source `CodeReviewer._call_openai_api` (lines 142-172): run the retry loop from
attempt 0.  `range` of a negative count is empty, hence `Int.toNat`. -/
def call_openai_api (cfg : CodeReviewConfig) (oracle : ServiceOracle)
    (messages : List Message) : ReviewResult × List Int × Nat :=
  callApiFrom cfg oracle messages 0 cfg.retry_count.toNat

/-! ## The prompt f-string (lines 183-216)

The review prompt is a Python f-string.  Its template contains, as literal
text, JSON schema examples in braces such as
`"rating": 评分(1-5), "comments": [评论列表]` — but inside an f-string a
braced group is a replacement field, and the first top-level `:` separates
the expression from the format specifier.  CPython therefore parses this
group as the expression `"rating"` followed by the format specifier
` 评分(1-5), "comments": [评论列表]`, and `str.__format__` rejects that
specifier with `ValueError: Invalid format specifier ...`.  Consequently
prompt construction raises on every input.  The model below mirrors this:
a template is a list of parts, a part with a format specifier goes through
`strFormat`, and `strFormat` accepts the empty specifier and raises on the
specifiers occurring in this program (no valid non-empty specifier is
applied to a string anywhere in the source). -/

inductive FStrPart where
  | lit (s : String)
  | field (value : String)
  | fieldSpec (value : String) (spec : String)

/-- Python `format(value, spec)` for `str` values, restricted to the
specifiers this program produces: the empty specifier returns the value,
and every specifier actually occurring in the source is rejected by
CPython, matching the error branch here. -/
def strFormat (value spec : String) : Except String String :=
  if spec = "" then .ok value
  else .error ("Invalid format specifier '" ++ spec ++ "' for object of type 'str'")

/-- Evaluate an f-string template; the first failing replacement field
raises, as in CPython. -/
def evalFString : List FStrPart → Except String String
  | [] => .ok ""
  | .lit s :: rest => do pure (s ++ (← evalFString rest))
  | .field v :: rest => do pure (v ++ (← evalFString rest))
  | .fieldSpec v spec :: rest => do
      let s ← strFormat v spec
      pure (s ++ (← evalFString rest))

/-- Python truthiness of `Optional[str]` (`language if language else ""`). -/
def pyOptStrTruthy (o : Option String) : Bool :=
  match o with
  | none => false
  | some s => s ≠ ""

/-- The format specifier CPython extracts from the template group
beginning `"rating"` on source line 206 — the first failing field. -/
def ratingSpecA : String := " 评分(1-5), \"comments\": [评论列表]"

/-- The `ValueError` message raised by the file-review prompt f-string. -/
def fileValueErrorMsg : String :=
  "Invalid format specifier '" ++ ratingSpecA ++ "' for object of type 'str'"

/-- The file-review prompt template (lines 183-216) as parsed by CPython:
literal text, valid replacement fields for `file_path`, the language
conditional, `file_content` and `language_prompt`, and the five literal
JSON-schema groups, each parsed as a string expression plus an invalid
format specifier. -/
def filePromptParts (file_path : String) (language : Option String)
    (file_content language_prompt : String) : List FStrPart :=
  [.lit "你是一名经验丰富的代码审查专家，请审查以下代码文件：\n\n文件路径：",
   .field file_path,
   .lit "\n",
   .field (if pyOptStrTruthy language then "编程语言：" ++ language.getD "" else ""),
   .lit "\n\n代码内容：\n```\n",
   .field file_content,
   .lit "\n```\n\n请从以下几个方面进行审查：\n1. 代码质量和可读性\n2. 潜在的bug和逻辑问题\n3. 性能优化建议\n4. 安全性考虑\n5. 最佳实践符合性\n6. 代码复杂度分析\n7. 代码重复检测\n8. 代码风格一致性\n\n",
   .field language_prompt,
   .lit "\n\n请提供具体的反馈和改进建议，返回格式必须是JSON对象，包含以下字段：\n- code_quality: ",
   .fieldSpec "rating" ratingSpecA,
   .lit "\n- potential_issues: [",
   .fieldSpec "line" " 行号, \"description\": 问题描述, \"severity\": \"low|medium|high\", \"suggestion\": 改进建议",
   .lit "]\n- performance_suggestions: [性能优化建议列表]\n- security_considerations: [安全考虑建议列表]\n- best_practices: [最佳实践建议列表]\n- complexity_analysis: ",
   .fieldSpec "score" " 复杂度分数, \"hotspots\": [热点代码行号列表]",
   .lit "\n- code_duplication: [",
   .fieldSpec "line" " 行号, \"description\": 重复代码描述",
   .lit "]\n- style_consistency: ",
   .fieldSpec "rating" " 评分(1-5), \"issues\": [风格问题列表]",
   .lit "\n- summary: 总体总结\n\n请确保返回的JSON可以被正确解析，不要包含任何JSON之外的内容。"]

/-- The system message of the single-file review (line 227). -/
def fileSystemMsg : String := "你是一名经验丰富的代码审查专家，擅长多语言代码分析和优化。"

/-- A Python-truthiness cache lookup: `some r` exactly when
`if cached_result:` is taken in the source. -/
def truthyHit (o : Option ReviewResult) : Option ReviewResult :=
  match o with
  | some r => if pyTruthyDict r then some r else none
  | none => none

/-- Source `CodeReviewer.review_file` (lines 174-241): build the prompt (which
raises, see above), then check the cache, on a miss call the service, and
cache the result only when it has no `"error"` field.  Returns the result
together with the updated cache and the number of service requests issued;
`Except.error` is an escaping Python exception. -/
def review_file (cfg : CodeReviewConfig) (oracle : ServiceOracle) (cache : Cache)
    (file_path file_content : String) :
    Except String (ReviewResult × Cache × Nat) := do
  let language := get_file_language file_path
  let language_prompt := langPrompt language
  let prompt ← evalFString (filePromptParts file_path language file_content language_prompt)
  let cache_key := get_cache_key file_content prompt
  match truthyHit (get_cached_result cache cache_key) with
  | some r => return (r, cache, 0)
  | none =>
      let messages := [("system", fileSystemMsg), ("user", prompt)]
      let res := call_openai_api cfg oracle messages
      let cache2 := if hasError res.1 then cache else cache_result cache cache_key res.1
      return (res.1, cache2, res.2.2)

/-! ## Changed-file extraction (`CodeReviewer.review_git_diff`, lines 262-269)

The loop scans diff lines for the `diff --git` marker, splits on the space
character, and — guarded only by `len(parts) >= 3` — reads `parts[3]` and
applies `lstrip('a/')`.  `parts[3]` on a well-formed header is the *new*
file token `b/<path>`, and `lstrip` removes a leading run of characters
from the set `{'a', '/'}`, so the `b/` prefix survives.  A marker line with
exactly three tokens makes `parts[3]` raise `IndexError`. -/

/-- The message of an out-of-range list subscript. -/
def indexErrorMsg : String := "list index out of range"

/-- One iteration of the changed-file loop. -/
def extractStep (acc : List String) (line : String) : Except String (List String) :=
  if pyStartsWith line "diff --git" then
    let parts := pySplitChar line ' '
    if parts.length ≥ 3 then
      match parts.get? 3 with
      | some tok => .ok (acc ++ [pyLstrip tok ['a', '/']])
      | none => .error indexErrorMsg
    else .ok acc
  else .ok acc

/-- The changed-file loop over the diff's lines. -/
def extractChangedFilesLines (lines : List String) : Except String (List String) :=
  lines.foldlM extractStep []

/-- The changed-file extraction of `review_git_diff`:
`for line in diff.split('\n'): ...` (lines 263-269). -/
def extract_changed_files (diff : String) : Except String (List String) :=
  extractChangedFilesLines (pySplitChar diff '\n')

/-! ## File analysis (`FileAnalyzer.analyze_file`, lines 386-462)

The filesystem is an environment: reading a path yields its text content,
or one of the failure modes the source catches (`FileNotFoundError`,
`UnicodeDecodeError`, anything else).  The line-classification loop
(lines 409-438) is `countLinesAux`. -/

inductive FileOutcome where
  | ok (content : String)
  | notFound
  | notUtf8
  | otherError (msg : String)

structure Env where
  fs : String → FileOutcome
  size : String → Nat
  now : String

structure LineCounts where
  code_lines : Nat
  comment_lines : Nat
  blank_lines : Nat
  deriving Repr, DecidableEq

/-- The classification loop of `analyze_file` (lines 409-438): one linear
pass with the single boolean `in_multi_comment` flag. -/
def countLinesAux (inMulti : Bool) (acc : LineCounts) :
    List String → LineCounts
  | [] => acc
  | line :: rest =>
    let stripped := pyStrip line
    if stripped = "" then
      countLinesAux inMulti { acc with blank_lines := acc.blank_lines + 1 } rest
    else if inMulti then
      countLinesAux (if pyContains stripped "*/" then false else true)
        { acc with comment_lines := acc.comment_lines + 1 } rest
    else if pyStartsWith stripped "#" || pyStartsWith stripped "//" then
      countLinesAux inMulti { acc with comment_lines := acc.comment_lines + 1 } rest
    else if pyContains stripped "/*" then
      countLinesAux (if pyContains (pyAfterFirst stripped "/*") "*/" then false else true)
        { acc with comment_lines := acc.comment_lines + 1 } rest
    else
      countLinesAux inMulti { acc with code_lines := acc.code_lines + 1 } rest

/-- Python `str.split()` with no argument: whitespace runs, no empty fields. -/
def pyWordsAux (acc : List Char) : List Char → List (List Char)
  | [] => if acc = [] then [] else [acc.reverse]
  | c :: cs =>
      if isPySpace c then
        if acc = [] then pyWordsAux [] cs else acc.reverse :: pyWordsAux [] cs
      else pyWordsAux (c :: acc) cs

/-- Number of whitespace-separated words (`len(content.split())`, line 444). -/
def pyWordCount (s : String) : Nat :=
  (pyWordsAux [] s.toList).length

structure FileInfo where
  file_path : String
  file_name : String
  file_size : Nat
  line_count : Nat
  code_lines : Nat
  comment_lines : Nat
  blank_lines : Nat
  estimated_tokens : Nat
  content : String
  deriving Repr, DecidableEq

/-- Source `FileAnalyzer.analyze_file` (lines 386-462).  The function never lets an
exception escape: `Except.error e` here stands for the returned dict
`{"error": e}`. -/
def analyze_file (env : Env) (file_path : String) : Except String FileInfo :=
  match env.fs file_path with
  | .notUtf8 => .error ("文件 " ++ file_path ++ " 不是有效的UTF-8编码文件")
  | .notFound => .error ("文件 " ++ file_path ++ " 不存在")
  | .otherError msg => .error ("分析文件时发生错误: " ++ msg)
  | .ok content =>
    let lines := pySplitChar content '\n'
    let counts := countLinesAux false ⟨0, 0, 0⟩ lines
    .ok { file_path := file_path,
          file_name := pyBasename file_path,
          file_size := env.size file_path,
          line_count := lines.length,
          code_lines := counts.code_lines,
          comment_lines := counts.comment_lines,
          blank_lines := counts.blank_lines,
          estimated_tokens := pyWordCount content,
          content := content }

/-! ## Batch review (`CodeReviewer.batch_review_files`, lines 340-384)

The thread pool dispatches `_review_file_wrapper` per path and collects
results keyed by path; an exception raised by a task is caught at
`future.result()` and becomes `{"error": str(e)}` plus an entry in
`failed_files`.  The model executes one linearization of the pool (the
summary counts are identical under every interleaving); the shared cache
is threaded through in that order. -/

/-- Source `CodeReviewer._review_file_wrapper` (lines 379-384): an analysis error
dict is returned as the result (not raised); otherwise the file content is
reviewed. -/
def review_file_wrapper (cfg : CodeReviewConfig) (oracle : ServiceOracle)
    (env : Env) (cache : Cache) (file_path : String) :
    Except String (ReviewResult × Cache × Nat) :=
  match analyze_file env file_path with
  | .error e => .ok ([("error", e)], cache, 0)
  | .ok info => review_file cfg oracle cache file_path info.content

structure BatchSummary where
  total_files : Nat
  successful_reviews : Nat
  failed_reviews : Nat
  failed_files : List String
  timestamp : String
  deriving Repr, DecidableEq

structure BatchOutput where
  summary : BatchSummary
  file_reviews : List (String × ReviewResult)
  deriving Repr, DecidableEq

/-- The per-future collection loop of `batch_review_files` (lines 356-364):
accumulates the result map, the failed list and the cache. -/
def batchAux (cfg : CodeReviewConfig) (oracle : ServiceOracle) (env : Env) :
    List String → List (String × ReviewResult) × List String × Cache →
    List (String × ReviewResult) × List String × Cache
  | [], st => st
  | p :: ps, (results, failed, cache) =>
    match review_file_wrapper cfg oracle env cache p with
    | .ok (r, cache2, _) => batchAux cfg oracle env ps (results ++ [(p, r)], failed, cache2)
    | .error e =>
        batchAux cfg oracle env ps (results ++ [(p, [("error", e)])], failed ++ [p], cache)

/-- Source `CodeReviewer.batch_review_files` (lines 340-377): collect all results,
then compute the summary, with `successful_reviews = len(results) -
len(failed_files)` and `failed_reviews = len(failed_files)`. -/
def batch_review_files (cfg : CodeReviewConfig) (oracle : ServiceOracle)
    (env : Env) (cache : Cache) (file_paths : List String) : BatchOutput :=
  let st := batchAux cfg oracle env file_paths ([], [], cache)
  { summary := { total_files := file_paths.length,
                 successful_reviews := st.1.length - st.2.1.length,
                 failed_reviews := st.2.1.length,
                 failed_files := st.2.1,
                 timestamp := env.now },
    file_reviews := st.1 }

/-! ## Directory walk (`FileAnalyzer.find_files`, lines 464-487)

`os.walk` is modelled over a directory tree.  Only *file* names beginning
with a dot are skipped (hidden directories are still traversed, as in the
source); the extension filter applies only when the `extensions` argument
is truthy (a non-empty list), and compares the lowercased
`os.path.splitext` extension for membership. -/

inductive FSTree where
  | file (name : String)
  | dir (name : String) (children : List FSTree)
  deriving Repr

/-- Python truthiness of the `extensions` argument (`if extensions:`):
`None` and the empty list are falsy. -/
def extTruthy : Option (List String) → Bool
  | none => false
  | some [] => false
  | some (_ :: _) => true

/-- Membership of an extension in the filter list. -/
def extMember (exts : Option (List String)) (ext : String) : Bool :=
  match exts with
  | none => false
  | some l => ext ∈ l

/-- Should `find_files` keep this file name? (lines 472-482): skip dotted
names; with a truthy filter keep matching extensions, else keep all. -/
def keepFile (exts : Option (List String)) (name : String) : Bool :=
  if pyStartsWith name "." then false
  else if extTruthy exts then extMember exts (pyLower (pySplitext name))
  else true

/-- The file names among a directory's children, in order. -/
def childFileNames : List FSTree → List String
  | [] => []
  | .file n :: rest => n :: childFileNames rest
  | .dir _ _ :: rest => childFileNames rest

/-- The walk of one directory by `find_files` given its children (the
`for root, _, files in os.walk(...)` body, lines 470-482): filter this
directory's files, then recurse into subdirectories in order. -/
def walkDir (exts : Option (List String)) (root : String)
    (children : List FSTree) : List String :=
  ((childFileNames children).filter (keepFile exts)).map (fun f => pyJoin root f) ++
    children.attach.flatMap (fun ⟨t, ht⟩ =>
      match t with
      | .file _ => []
      | .dir n cs => walkDir exts (pyJoin root n) cs)
termination_by sizeOf children
decreasing_by
  have hm := List.sizeOf_lt_of_mem ht
  simp only [FSTree.dir.sizeOf_spec] at hm
  omega

/-- Source `FileAnalyzer.find_files` (lines 464-487): the environment gives the
children of the `directory` argument. -/
def find_files (fsroot : List FSTree) (directory : String)
    (extensions : Option (List String)) : List String :=
  walkDir extensions directory fsroot

/-- The unfiltered recursive walk: every file of the tree with its name and
its joined path, in walk order (the reference point for `find_files`). -/
def walkAll (root : String) (children : List FSTree) : List (String × String) :=
  (childFileNames children).map (fun f => (f, pyJoin root f)) ++
    children.attach.flatMap (fun ⟨t, ht⟩ =>
      match t with
      | .file _ => []
      | .dir n cs => walkAll (pyJoin root n) cs)
termination_by sizeOf children
decreasing_by
  have hm := List.sizeOf_lt_of_mem ht
  simp only [FSTree.dir.sizeOf_spec] at hm
  omega

/-! ## Specification-side line classifier

Restatement of the claimed classification algorithm as a per-line step
function threading the single flag, to be proved equivalent to the
counting loop embedded from the source. -/

inductive LineClass where
  | blank
  | comment
  | code
  deriving Repr, DecidableEq

/-- Classify one line given the in-block-comment flag, returning the class
and the updated flag, exactly as the specification words it: blank if empty
after trimming; else comment while inside a block comment (clearing the
flag on a terminator); else comment on a single-line marker; else comment
on a block starter (setting the flag unless the terminator follows the
starter on the same line); else code. -/
def classifyLine (inMulti : Bool) (line : String) : LineClass × Bool :=
  let stripped := pyStrip line
  if stripped = "" then (.blank, inMulti)
  else if inMulti then
    (.comment, if pyContains stripped "*/" then false else true)
  else if pyStartsWith stripped "#" || pyStartsWith stripped "//" then
    (.comment, inMulti)
  else if pyContains stripped "/*" then
    (.comment, if pyContains (pyAfterFirst stripped "/*") "*/" then false else true)
  else (.code, inMulti)

/-- Classify every line of a file in one linear pass. -/
def classifyLines (inMulti : Bool) : List String → List LineClass
  | [] => []
  | l :: rest =>
      (classifyLine inMulti l).1 :: classifyLines (classifyLine inMulti l).2 rest

/-! ## Concrete fixtures used by witnesses and evaluations -/

/-- A transient service failure: rate limit or generic API error (the two
retried exception branches of `_call_openai_api`). -/
def transient (o : AttemptOutcome) : Prop :=
  o = .rateLimit ∨ o = .apiError

/-- A configuration with the source's default values. -/
def cfgDefault : CodeReviewConfig :=
  { model := "gpt-4o", temperature := 1/5, max_tokens := 4096, api_base := none,
    retry_count := 3, retry_delay := 2, concurrent_workers := 2, cache_dir := ".cache" }

/-- The default configuration with `retry_count = 0`. -/
def cfgRetryZero : CodeReviewConfig :=
  { model := "gpt-4o", temperature := 1/5, max_tokens := 4096, api_base := none,
    retry_count := 0, retry_delay := 2, concurrent_workers := 2, cache_dir := ".cache" }

/-- A service that always answers with a well-formed body. -/
def oracleOk : ServiceOracle := fun _ _ => .success (some [("summary", "ok")])

/-- A service whose response body never parses as JSON. -/
def oracleMalformed : ServiceOracle := fun _ _ => .success none

/-- A service that always signals a rate limit. -/
def oracleRateLimit : ServiceOracle := fun _ _ => .rateLimit

/-- A filesystem with two readable files and everything else missing. -/
def envC1 : Env :=
  { fs := fun p => if p = "good.py" then .ok "x = 1"
      else if p = "other.py" then .ok "y = 2" else .notFound,
    size := fun _ => 5, now := "2025-01-01T00:00:00" }

/-! # Theorems -/

/-! ## Helper lemmas -/

theorem pySplitCharAux_sep (sep : Char) (xs : List Char) (hxs : sep ∉ xs) :
    ∀ (ys acc : List Char),
      pySplitCharAux sep (xs ++ sep :: ys) acc =
        (acc.reverse ++ xs) :: pySplitCharAux sep ys [] := by
  induction xs with
  | nil => intro ys acc; simp [pySplitCharAux]
  | cons x xs ih =>
    intro ys acc
    have hx : ¬ x = sep := fun h => hxs (by simp [h])
    simp only [List.cons_append, pySplitCharAux, if_neg hx, List.append_eq]
    rw [ih (fun h => hxs (List.mem_cons_of_mem _ h))]
    simp

theorem pySplitCharAux_no_sep (sep : Char) (xs : List Char) (hxs : sep ∉ xs) :
    ∀ acc : List Char, pySplitCharAux sep xs acc = [acc.reverse ++ xs] := by
  induction xs with
  | nil => intro acc; simp [pySplitCharAux]
  | cons x xs ih =>
    intro acc
    have hx : ¬ x = sep := fun h => hxs (by simp [h])
    simp only [pySplitCharAux, if_neg hx, List.append_eq]
    rw [ih (fun h => hxs (List.mem_cons_of_mem _ h))]
    simp

theorem bytesLE_length : ∀ (k n : Nat), (bytesLE k n).length = k := by
  intro k
  induction k with
  | zero => intro n; simp [bytesLE]
  | succ m ih => intro n; simp [bytesLE, ih]

theorem md5Digest_length (msg : List Nat) : (md5Digest msg).length = 16 := by
  simp [md5Digest, bytesLE_length]

theorem hexOfBytes_length (bs : List Nat) : (hexOfBytes bs).length = 2 * bs.length := by
  show (String.mk _).length = _
  show (List.foldr _ [] bs).length = _
  induction bs with
  | nil => rfl
  | cons b bs ih => simp [List.foldr, ih]; omega

/-! ## Claim C9 — configuration validation -/

/-- C9: constructing a `CodeReviewConfig` with `temperature` outside `[0, 2]`,
`retry_count < 0` or `concurrent_workers < 1` fails with a validation error,
while every in-bounds value is stored unchanged, never clamped. -/
theorem C9_config_validation (model : String) (t : ℚ) (mt : Int) (ab : Option String)
    (rc rd cw : Int) (cd : String) :
    (0 ≤ t ∧ t ≤ 2 ∧ 0 ≤ rc ∧ 1 ≤ cw →
      mkConfig model t mt ab rc rd cw cd =
        .ok { model := model, temperature := t, max_tokens := mt, api_base := ab,
              retry_count := rc, retry_delay := rd, concurrent_workers := cw,
              cache_dir := cd })
  ∧ ((¬(0 ≤ t ∧ t ≤ 2) ∨ rc < 0 ∨ cw < 1) →
      ∃ msg, mkConfig model t mt ab rc rd cw cd = .error msg) := by
  constructor
  · rintro ⟨h1, h2, h3, h4⟩
    have hrc : ¬ rc < 0 := by omega
    have hcw : ¬ cw < 1 := by omega
    simp [mkConfig, validate_temperature, validate_retry_count,
      validate_concurrent_workers, h1, h2, hrc, hcw]
  · intro h
    by_cases ht : 0 ≤ t ∧ t ≤ 2
    · by_cases hrc : rc < 0
      · exact ⟨"重试次数不能为负数", by simp [mkConfig, validate_temperature,
          validate_retry_count, ht.1, ht.2, hrc]⟩
      · have hcw : cw < 1 := by
          rcases h with h | h | h
          · exact absurd ht h
          · exact absurd h hrc
          · exact h
        exact ⟨"并发工作线程至少为1", by simp [mkConfig, validate_temperature,
          validate_retry_count, validate_concurrent_workers, ht.1, ht.2, hrc, hcw]⟩
    · exact ⟨"温度必须在0到2之间", by simp [mkConfig, validate_temperature, ht]⟩

/-- Witness for C9: the default values are accepted and stored unchanged;
a temperature of 3 is rejected. -/
theorem C9_config_validation_witness :
    mkConfig "gpt-4o" (1/5) 4096 none 3 2 2 ".cache" = .ok cfgDefault ∧
    (∃ msg, mkConfig "gpt-4o" 3 4096 none 3 2 2 ".cache" = .error msg) := by
  constructor
  · exact (C9_config_validation "gpt-4o" (1/5) 4096 none 3 2 2 ".cache").1 (by norm_num)
  · exact (C9_config_validation "gpt-4o" 3 4096 none 3 2 2 ".cache").2 (by norm_num)

/-! ## Claim C2 — changed-file extraction of `review_git_diff` -/

/-- C2 counterexample: for the well-formed header
`diff --git a/foo.py b/foo.py` the extraction yields `b/foo.py` — the
fourth token with only leading `a`/`/` characters stripped — and not the
bare repository-relative path `foo.py` the claim asserts. -/
theorem C2_extraction_counterexample :
    extract_changed_files
        "diff --git a/foo.py b/foo.py\n--- a/foo.py\n+++ b/foo.py\n+x = 1" =
      .ok ["b/foo.py"] ∧ ("b/foo.py" : String) ≠ "foo.py" := by
  constructor
  · rfl
  · decide

/-- C2 amended: for every space-free path `p`, the extraction applied to the
header `diff --git a/<p> b/<p>` takes the fourth whitespace token (the
new-file token `b/<p>`) and `lstrip('a/')` — a character-set strip —
removes nothing from it because it begins with `b`, so the collected entry
is the `b/`-prefixed path. -/
theorem C2_extraction_amended (p : List Char) (hp : ' ' ∉ p) :
    extractChangedFilesLines
        [String.mk ("diff --git a/".toList ++ p ++ (' ' :: 'b' :: '/' :: p))] =
      .ok [String.mk ('b' :: '/' :: p)] := by
  have hchars : "diff --git a/".toList ++ p ++ (' ' :: 'b' :: '/' :: p) =
      "diff".toList ++ ' ' :: ("--git".toList ++ ' ' ::
        (('a' :: '/' :: p) ++ ' ' :: ('b' :: '/' :: p))) := by rfl
  have hstart : pyStartsWith
      (String.mk ("diff --git a/".toList ++ p ++ (' ' :: 'b' :: '/' :: p)))
      "diff --git" = true := by rfl
  have h1 : (' ' : Char) ∉ "diff".toList := by decide
  have h2 : (' ' : Char) ∉ "--git".toList := by decide
  have h3 : (' ' : Char) ∉ ('a' :: '/' :: p) := by
    simp only [List.mem_cons]
    push_neg
    exact ⟨by decide, by decide, hp⟩
  have h4 : (' ' : Char) ∉ ('b' :: '/' :: p) := by
    simp only [List.mem_cons]
    push_neg
    exact ⟨by decide, by decide, hp⟩
  have hsplit : pySplitChar
      (String.mk ("diff --git a/".toList ++ p ++ (' ' :: 'b' :: '/' :: p))) ' ' =
      ["diff", "--git", String.mk ('a' :: '/' :: p), String.mk ('b' :: '/' :: p)] := by
    show (pySplitCharAux ' ' _ []).map String.mk = _
    rw [show (String.mk ("diff --git a/".toList ++ p ++ (' ' :: 'b' :: '/' :: p))).toList =
      "diff".toList ++ ' ' :: ("--git".toList ++ ' ' ::
        (('a' :: '/' :: p) ++ ' ' :: ('b' :: '/' :: p))) from hchars]
    rw [pySplitCharAux_sep ' ' _ h1, pySplitCharAux_sep ' ' _ h2,
      pySplitCharAux_sep ' ' _ h3, pySplitCharAux_no_sep ' ' _ h4]
    rfl
  show (extractStep [] _ >>= fun b => List.foldlM extractStep b []) = _
  rw [show extractStep []
      (String.mk ("diff --git a/".toList ++ p ++ (' ' :: 'b' :: '/' :: p))) =
      .ok [String.mk ('b' :: '/' :: p)] from ?_]
  · rfl
  · simp only [extractStep, hstart, if_true, hsplit]
    simp [pyLstrip, pyLstripL]

/-- Witness for C2's amended theorem at the concrete path `foo.py`. -/
theorem C2_extraction_amended_witness :
    extractChangedFilesLines
        [String.mk ("diff --git a/".toList ++ "foo.py".toList ++
          (' ' :: 'b' :: '/' :: "foo.py".toList))] =
      .ok [String.mk ('b' :: '/' :: "foo.py".toList)] :=
  C2_extraction_amended "foo.py".toList (by decide)

/-! ## Claim C6 — cache key -/

/-- C6 counterexample: the distinct pairs `("a\n---\nb", "c")` and
`("a", "b\n---\nc")` concatenate — through the separator `\n---\n`, which
may itself occur in the texts — to the same combined string, hence collide
with certainty, not merely with negligible probability. -/
theorem C6_cache_key_counterexample :
    get_cache_key "a\n---\nb" "c" = get_cache_key "a" "b\n---\nc" ∧
    (("a\n---\nb", "c") : String × String) ≠ ("a", "b\n---\nc") := by
  constructor
  · show md5HexOfString _ = md5HexOfString _
    exact congrArg md5HexOfString (by decide)
  · decide

/-- C6 amended: the cache key is a pure deterministic function of the pair
with fixed length 32 (the MD5 hex digest), and identical pairs always yield
identical keys; but any two pairs whose `content ++ "\n---\n" ++ prompt`
concatenations coincide yield identical keys with certainty, so distinctness
of keys for distinct pairs holds only when the combined strings differ. -/
theorem C6_cache_key_amended :
    (∀ content prompt : String, (get_cache_key content prompt).length = 32)
  ∧ (∀ c p c2 p2 : String, c = c2 → p = p2 → get_cache_key c p = get_cache_key c2 p2)
  ∧ (∀ c p c2 p2 : String, c ++ "\n---\n" ++ p = c2 ++ "\n---\n" ++ p2 →
       get_cache_key c p = get_cache_key c2 p2) := by
  refine ⟨fun content prompt => ?_, fun c p c2 p2 hc hp => by rw [hc, hp], ?_⟩
  · show (hexOfBytes (md5Digest _)).length = 32
    rw [hexOfBytes_length, md5Digest_length]
  · intro c p c2 p2 h
    show md5HexOfString _ = md5HexOfString _
    exact congrArg md5HexOfString h

/-- Witness for C6's amended theorem: a concrete length computation and a
concrete collision through the separator. -/
theorem C6_cache_key_amended_witness :
    (get_cache_key "x = 1" "review prompt").length = 32 ∧
    get_cache_key "q\n---\nr" "s" = get_cache_key "q" "r\n---\ns" :=
  ⟨C6_cache_key_amended.1 "x = 1" "review prompt",
   C6_cache_key_amended.2.2 "q\n---\nr" "s" "q" "r\n---\ns" (by decide)⟩

/-! ## Claim C3 — cache round trip of `review_file`

The claim's scenario cannot occur: the prompt f-string raises before the
cache is consulted, for every configuration, oracle, cache state and input. -/

/-- C3: `review_file` never reaches the cache or the service — every call
raises the `ValueError` produced by the prompt f-string's invalid format
specifier, so no result is ever stored and the second invocation of an
identical review raises identically instead of hitting the cache. -/
theorem C3_review_file_always_raises (cfg : CodeReviewConfig) (oracle : ServiceOracle)
    (cache : Cache) (p c : String) :
    review_file cfg oracle cache p c = .error fileValueErrorMsg := by
  rfl

/-! ## Claim C5 — malformed response bodies -/

/-- C5: in isolation `_call_openai_api` does resolve a malformed body to an
immediate error result (one request, no sleeps, no retries) and that result
carries the `error` field which the cache-write guard of `review_file`
rejects; but the review path never issues the service call at all — it
raises during prompt construction — so no malformed response can ever
reach the cache-discipline code, and re-invoking a review raises again
without re-attempting any service call. -/
theorem C5_malformed_response :
    call_openai_api cfgDefault oracleMalformed [("user", "hi")] =
      ([("error", invalidJsonMsg)], [], 1)
    ∧ hasError [("error", invalidJsonMsg)] = true
    ∧ review_file cfgDefault oracleMalformed [] "a.py" "x = 1" = .error fileValueErrorMsg := by
  refine ⟨by rfl, by rfl, by rfl⟩

/-! ## Claim C10 — `retry_count = 0` -/

/-- C10: the validator accepts `retry_count = 0`; under that configuration
`_call_openai_api` issues zero requests and immediately returns the
retry-limit-exceeded error for every oracle; but a cache-missing review
does not resolve to that payload — `review_file` raises the prompt
`ValueError` before reaching the client, for every oracle and cache. -/
theorem C10_retry_zero :
    (∀ (oracle : ServiceOracle) (messages : List Message),
       call_openai_api cfgRetryZero oracle messages =
         ([("error", retryExceededMsg 0)], [], 0))
    ∧ mkConfig "gpt-4o" (1/5) 4096 none 0 2 2 ".cache" = .ok cfgRetryZero
    ∧ (∀ (oracle : ServiceOracle) (cache : Cache) (p c : String),
         review_file cfgRetryZero oracle cache p c = .error fileValueErrorMsg) := by
  refine ⟨fun oracle messages => by rfl, by
    norm_num [mkConfig, validate_temperature, validate_retry_count,
      validate_concurrent_workers, cfgRetryZero], fun oracle cache p c => by rfl⟩

/-! ## Claim C1 — batch review with one unreadable file

Evaluating the batch at two readable files and one missing file: the
missing file's analysis error is returned (not raised) by the wrapper and
is therefore counted as successful, while both readable files raise the
prompt `ValueError` inside their tasks and are the ones counted as failed. -/

/-- C1: at the batch `["good.py", "missing.py", "other.py"]` with only
`missing.py` unreadable, the source yields three error payloads (not one),
`failed_reviews = 2` (not 1), `successful_reviews = 1` (not 2), and
`failed_files` lists the two readable files instead of `missing.py`. -/
theorem C1_batch_one_unreadable :
    (batch_review_files cfgDefault oracleOk envC1 []
        ["good.py", "missing.py", "other.py"]).summary =
      { total_files := 3, successful_reviews := 1, failed_reviews := 2,
        failed_files := ["good.py", "other.py"], timestamp := "2025-01-01T00:00:00" }
    ∧ ((batch_review_files cfgDefault oracleOk envC1 []
        ["good.py", "missing.py", "other.py"]).file_reviews.filter
          (fun pr => hasError pr.2)).length = 3
    ∧ (batch_review_files cfgDefault oracleOk envC1 []
        ["good.py", "missing.py", "other.py"]).file_reviews.length = 3 := by
  refine ⟨by rfl, by rfl, by rfl⟩

/-! ## Claim C4 — retry/backoff policy of `_call_openai_api` -/

/-- Unfolding of the retry loop when every remaining attempt fails
transiently: the loop exhausts its fuel, sleeps the full exponential
schedule and returns the retry-exceeded error. -/
theorem callApiFrom_all_transient (cfg : CodeReviewConfig) (oracle : ServiceOracle)
    (messages : List Message) :
    ∀ (fuel attempt : Nat),
      (∀ i, attempt ≤ i → i < attempt + fuel → transient (oracle messages i)) →
      callApiFrom cfg oracle messages attempt fuel =
        ([("error", retryExceededMsg cfg.retry_count)],
         (List.range fuel).map (fun k => cfg.retry_delay * 2 ^ (attempt + k)), fuel) := by
  intro fuel
  induction fuel with
  | zero => intro attempt _; simp [callApiFrom]
  | succ n ih =>
    intro attempt h
    have h0 : transient (oracle messages attempt) := h attempt le_rfl (by omega)
    have hrec := ih (attempt + 1) (fun i h1 h2 => h i (by omega) (by omega))
    have hmap : (List.range (n + 1)).map (fun k => cfg.retry_delay * 2 ^ (attempt + k)) =
        cfg.retry_delay * 2 ^ attempt ::
          (List.range n).map (fun k => cfg.retry_delay * 2 ^ (attempt + 1 + k)) := by
      rw [List.range_succ_eq_map, List.map_cons, List.map_map]
      have htail : (List.range n).map ((fun k => cfg.retry_delay * 2 ^ (attempt + k)) ∘ Nat.succ) =
          (List.range n).map (fun k => cfg.retry_delay * 2 ^ (attempt + 1 + k)) :=
        List.map_congr_left fun k _ => by
          show cfg.retry_delay * 2 ^ (attempt + (k + 1)) = cfg.retry_delay * 2 ^ (attempt + 1 + k)
          have he : attempt + (k + 1) = attempt + 1 + k := by omega
          rw [he]
      rw [htail]
      simp
    rcases h0 with h0 | h0 <;>
      simp only [callApiFrom, h0, hrec, hmap]

theorem callApiFrom_unexpected (cfg : CodeReviewConfig) (oracle : ServiceOracle)
    (messages : List Message) :
    ∀ (k fuel attempt : Nat) (msg : String), k < fuel →
      (∀ i, attempt ≤ i → i < attempt + k → transient (oracle messages i)) →
      oracle messages (attempt + k) = .unexpected msg →
      callApiFrom cfg oracle messages attempt fuel =
        ([("error", msg)],
         (List.range k).map (fun j => cfg.retry_delay * 2 ^ (attempt + j)), k + 1) := by
  intro k
  induction k with
  | zero =>
    intro fuel attempt msg hk h ho
    cases fuel with
    | zero => omega
    | succ n =>
      have ho2 : oracle messages attempt = .unexpected msg := ho
      simp only [callApiFrom, ho2]
      simp
  | succ m ih =>
    intro fuel attempt msg hk h ho
    cases fuel with
    | zero => omega
    | succ n =>
      have h0 : transient (oracle messages attempt) := h attempt le_rfl (by omega)
      have ho2 : oracle messages (attempt + 1 + m) = .unexpected msg := by
        have he : attempt + 1 + m = attempt + (m + 1) := by omega
        rw [he]; exact ho
      have hrec := ih n (attempt + 1) msg (by omega)
        (fun i h1 h2 => h i (by omega) (by omega)) ho2
      have hmap : (List.range (m + 1)).map (fun j => cfg.retry_delay * 2 ^ (attempt + j)) =
          cfg.retry_delay * 2 ^ attempt ::
            (List.range m).map (fun j => cfg.retry_delay * 2 ^ (attempt + 1 + j)) := by
        rw [List.range_succ_eq_map, List.map_cons, List.map_map]
        have htail : (List.range m).map ((fun j => cfg.retry_delay * 2 ^ (attempt + j)) ∘ Nat.succ) =
            (List.range m).map (fun j => cfg.retry_delay * 2 ^ (attempt + 1 + j)) :=
          List.map_congr_left fun j _ => by
            show cfg.retry_delay * 2 ^ (attempt + (j + 1)) = cfg.retry_delay * 2 ^ (attempt + 1 + j)
            have he : attempt + (j + 1) = attempt + 1 + j := by omega
            rw [he]
        rw [htail]
        simp
      rcases h0 with h0 | h0 <;>
        simp only [callApiFrom, h0, hrec, hmap]

theorem callApiFrom_calls_le (cfg : CodeReviewConfig) (oracle : ServiceOracle)
    (messages : List Message) :
    ∀ (fuel attempt : Nat), (callApiFrom cfg oracle messages attempt fuel).2.2 ≤ fuel := by
  intro fuel
  induction fuel with
  | zero => intro attempt; simp [callApiFrom]
  | succ n ih =>
    intro attempt
    cases ho : oracle messages attempt with
    | success parsed =>
      cases parsed <;> simp [callApiFrom, ho]
    | rateLimit =>
      simp only [callApiFrom, ho]
      have := ih (attempt + 1)
      omega
    | apiError =>
      simp only [callApiFrom, ho]
      have := ih (attempt + 1)
      omega
    | unexpected msg => simp [callApiFrom, ho]

theorem backoff_chain (cfg : CodeReviewConfig) (hd : 0 < cfg.retry_delay) (m : Nat) :
    List.Chain' (· < ·) ((List.range m).map (fun i => cfg.retry_delay * 2 ^ i)) := by
  rw [List.chain'_map]
  refine List.Pairwise.chain' ?_
  refine (List.pairwise_lt_range m).imp ?_
  intro a b hab
  have hpow : (2 : Int) ^ a < 2 ^ b := pow_lt_pow_right₀ (by norm_num) hab
  exact mul_lt_mul_of_pos_left hpow hd

/-- C4: the client makes at most `retry_count` attempts; when every attempt
up to index `i` fails transiently (rate limit or API error) it sleeps
`retry_delay * 2 ^ i` after attempt `i` — a strictly increasing schedule
when the delay is positive; any other unexpected failure at attempt `k`
returns its error immediately after `k + 1` requests without further
retries; and exhausting all attempts yields the distinct
retry-limit-exceeded error, different from the malformed-body error. -/
theorem C4_retry_backoff :
    (∀ (cfg : CodeReviewConfig) (oracle : ServiceOracle) (messages : List Message),
       (call_openai_api cfg oracle messages).2.2 ≤ cfg.retry_count.toNat)
  ∧ (∀ (cfg : CodeReviewConfig) (oracle : ServiceOracle) (messages : List Message),
       (∀ i, i < cfg.retry_count.toNat → transient (oracle messages i)) →
       call_openai_api cfg oracle messages =
         ([("error", retryExceededMsg cfg.retry_count)],
          (List.range cfg.retry_count.toNat).map (fun i => cfg.retry_delay * 2 ^ i),
          cfg.retry_count.toNat))
  ∧ (∀ (cfg : CodeReviewConfig) (oracle : ServiceOracle) (messages : List Message)
       (k : Nat) (msg : String), k < cfg.retry_count.toNat →
       (∀ i, i < k → transient (oracle messages i)) →
       oracle messages k = .unexpected msg →
       call_openai_api cfg oracle messages =
         ([("error", msg)], (List.range k).map (fun i => cfg.retry_delay * 2 ^ i), k + 1))
  ∧ (∀ (cfg : CodeReviewConfig) (oracle : ServiceOracle) (messages : List Message),
       0 < cfg.retry_delay →
       (∀ i, i < cfg.retry_count.toNat → transient (oracle messages i)) →
       List.Chain' (· < ·) (call_openai_api cfg oracle messages).2.1)
  ∧ (∀ n : Int, retryExceededMsg n ≠ invalidJsonMsg) := by
  have hzero : ∀ (f : Nat → Int), (List.range 0).map f = [] := by simp
  refine ⟨?_, ?_, ?_, ?_, ?_⟩
  · intro cfg oracle messages
    exact callApiFrom_calls_le cfg oracle messages cfg.retry_count.toNat 0
  · intro cfg oracle messages h
    have := callApiFrom_all_transient cfg oracle messages cfg.retry_count.toNat 0
      (fun i h1 h2 => h i (by omega))
    rw [call_openai_api, this]
    have hm : (List.range cfg.retry_count.toNat).map (fun k => cfg.retry_delay * 2 ^ (0 + k)) =
        (List.range cfg.retry_count.toNat).map (fun i => cfg.retry_delay * 2 ^ i) :=
      List.map_congr_left fun k _ => by rw [Nat.zero_add]
    rw [hm]
  · intro cfg oracle messages k msg hk h ho
    have := callApiFrom_unexpected cfg oracle messages k cfg.retry_count.toNat 0 msg hk
      (fun i h1 h2 => h i (by omega)) (by rw [Nat.zero_add]; exact ho)
    rw [call_openai_api, this]
    have hm : (List.range k).map (fun j => cfg.retry_delay * 2 ^ (0 + j)) =
        (List.range k).map (fun i => cfg.retry_delay * 2 ^ i) :=
      List.map_congr_left fun j _ => by rw [Nat.zero_add]
    rw [hm]
  · intro cfg oracle messages hd h
    have := callApiFrom_all_transient cfg oracle messages cfg.retry_count.toNat 0
      (fun i h1 h2 => h i (by omega))
    rw [call_openai_api, this]
    have hm : (List.range cfg.retry_count.toNat).map (fun k => cfg.retry_delay * 2 ^ (0 + k)) =
        (List.range cfg.retry_count.toNat).map (fun i => cfg.retry_delay * 2 ^ i) :=
      List.map_congr_left fun k _ => by rw [Nat.zero_add]
    show List.Chain' (· < ·) ((List.range cfg.retry_count.toNat).map
      (fun k => cfg.retry_delay * 2 ^ (0 + k)))
    rw [hm]
    exact backoff_chain cfg hd cfg.retry_count.toNat
  · intro n h
    have h3 := congrArg String.data h
    rw [show (retryExceededMsg n).data = '达' :: ("到最大重试次数 ".data ++ (toString n).data)
        from rfl,
      show invalidJsonMsg.data = 'A' :: "PI返回的内容格式无效".data from rfl,
      List.cons.injEq] at h3
    exact absurd h3.1 (by decide)

/-- Witness for C4: three attempts of an always-rate-limited service under
the default configuration sleep 2, 4 and 8 seconds and end with the
retry-limit-exceeded error. -/
theorem C4_retry_backoff_witness :
    call_openai_api cfgDefault oracleRateLimit [("user", "hi")] =
      ([("error", retryExceededMsg 3)], [2, 4, 8], 3) := by
  have h := C4_retry_backoff.2.1 cfgDefault oracleRateLimit [("user", "hi")]
    (fun i _ => Or.inl rfl)
  rw [h]
  rfl

/-! ## Claim C7 — line classification of `analyze_file` -/

/-- C7: the counting loop of `analyze_file` is exactly the one-pass
single-flag classification the specification describes — for every file the
counts equal the tallies of the per-line classifier — and on the 5-line
file `["# header", "", "x = 1", "/* c", "end */"]` it counts 3 comment
lines, 1 blank line and 1 code line. -/
theorem C7_line_classification :
    (∀ (inM : Bool) (acc : LineCounts) (lines : List String),
       countLinesAux inM acc lines =
         { code_lines := acc.code_lines + (classifyLines inM lines).count .code,
           comment_lines := acc.comment_lines + (classifyLines inM lines).count .comment,
           blank_lines := acc.blank_lines + (classifyLines inM lines).count .blank })
  ∧ countLinesAux false ⟨0, 0, 0⟩ ["# header", "", "x = 1", "/* c", "end */"] =
      { code_lines := 1, comment_lines := 3, blank_lines := 1 } := by
  constructor
  · intro inM acc lines
    induction lines generalizing inM acc with
    | nil => simp [countLinesAux, classifyLines]
    | cons l rest ih =>
      simp only [countLinesAux, classifyLines, classifyLine]
      split_ifs with h1 h2 h3 h4 <;>
        simp [ih, List.count_cons, LineCounts.mk.injEq] <;>
        omega
  · rfl

/-! ## Claim C8 — recursive directory walk of `find_files` -/

/-- The interleaved filtering walk of `find_files` equals filtering the full
recursive walk: exactly the non-hidden, extension-matching file paths. -/
theorem walkDir_eq_walkAll (exts : Option (List String)) :
    ∀ (children : List FSTree) (root : String),
      walkDir exts root children =
        ((walkAll root children).filter (fun e => keepFile exts e.1)).map (·.2) := by
  have key : ∀ (n : Nat) (children : List FSTree) (root : String), sizeOf children ≤ n →
      walkDir exts root children =
        ((walkAll root children).filter (fun e => keepFile exts e.1)).map (·.2) := by
    intro n
    induction n with
    | zero =>
      intro children root h
      have h0 : 0 < sizeOf children := by cases children <;> simp
      omega
    | succ n ih =>
      intro children root h
      rw [walkDir, walkAll, List.filter_append, List.map_append]
      congr 1
      · rw [List.filter_map, List.map_map]
        rfl
      · rw [List.filter_flatMap, List.map_flatMap]
        refine List.flatMap_congr fun x hx => ?_
        obtain ⟨t, ht⟩ := x
        cases t with
        | file name => simp
        | dir n2 cs =>
          have hm := List.sizeOf_lt_of_mem ht
          simp only [FSTree.dir.sizeOf_spec] at hm
          exact ih cs (pyJoin root n2) (by omega)
  intro children root
  exact key (sizeOf children) children root le_rfl

/-- C8: for every directory tree and optional extension filter, `find_files`
returns exactly the matching non-hidden file paths of the recursive walk
(hidden means the file name begins with a dot), and returns the empty list
— not an error — for an empty directory or when every entry is filtered
out. -/
theorem C8_find_files :
    (∀ (fsroot : List FSTree) (directory : String) (exts : Option (List String)),
       find_files fsroot directory exts =
         ((walkAll directory fsroot).filter (fun e => keepFile exts e.1)).map (·.2))
  ∧ (∀ (directory : String) (exts : Option (List String)), find_files [] directory exts = [])
  ∧ (∀ (fsroot : List FSTree) (directory : String) (exts : Option (List String)),
       (∀ e ∈ walkAll directory fsroot, keepFile exts e.1 = false) →
       find_files fsroot directory exts = []) := by
  refine ⟨fun fsroot directory exts => walkDir_eq_walkAll exts fsroot directory, ?_, ?_⟩
  · intro directory exts
    show walkDir exts directory [] = []
    rw [walkDir]
    simp [childFileNames]
  · intro fsroot directory exts h
    rw [find_files, walkDir_eq_walkAll exts fsroot directory]
    have : (walkAll directory fsroot).filter (fun e => keepFile exts e.1) = [] := by
      rw [List.filter_eq_nil_iff]
      intro e he
      simp [h e he]
    rw [this]
    rfl

/-- Witness for C8: a directory holding only a hidden file walks to that
single entry, every entry is filtered out, and `find_files` returns `[]`. -/
theorem C8_find_files_witness :
    (∀ e ∈ walkAll "root" [FSTree.file ".hidden.py"], keepFile none e.1 = false) ∧
    find_files [FSTree.file ".hidden.py"] "root" none = [] := by
  have hall : ∀ e ∈ walkAll "root" [FSTree.file ".hidden.py"], keepFile none e.1 = false := by
    intro e he
    have hwa : walkAll "root" [FSTree.file ".hidden.py"] = [(".hidden.py", "root/.hidden.py")] := by
      rw [walkAll]
      decide
    rw [hwa] at he
    simp at he
    subst he
    decide
  exact ⟨hall, C8_find_files.2.2 [FSTree.file ".hidden.py"] "root" none hall⟩
